import Mathlib

/-!
Shallow embedding of the job-sphere backend (PW-IOI-Tech/job-sphere).

The relational store is modelled as explicit lists of rows; each HTTP
handler becomes a pure function from the relevant tables and request
parameters to a structured outcome plus the updated tables.  Row ids are
`Nat`, Prisma enums become inductive types, and JavaScript truthiness on
optional numeric/boolean JSON values is modelled explicitly where the
source relies on it (`x || d`).
-/

namespace JobSphere

/-- Prisma enum `ApplicationStatus`. -/
inductive AppStatus
  | PENDING
  | REVIEWING
  | SHORTLISTED
  | INTERVIEWED
  | ACCEPTED
  | REJECTED
  | WITHDRAWN
  deriving DecidableEq, Repr

/-- An `Application` row.  The schema makes `id` a primary key and puts a
unique index on the `(jobId, seekerId)` pair
(`Application_jobId_seekerId_key` in the init migration). -/
structure Application where
  id : Nat
  jobId : Nat
  seekerId : Nat
  status : AppStatus
  deriving DecidableEq, Repr

/-- Outcome of `JobSeekerController.withdrawApplication` (part_001). -/
inductive SeekerWithdrawOutcome
  | noProfile -- 400: missing jobSeekerId on the request context
  | notFound -- 404: "Application not found or cannot be withdrawn"
  | withdrawn -- 200
  deriving DecidableEq, Repr

namespace JobSeekerController

/-- `JobSeekerController.withdrawApplication` (part_001 lines 464-522):
`findFirst` on id + seekerId + status in [PENDING, REVIEWING]; 404 when
nothing matches, otherwise the row with that id is updated to WITHDRAWN. -/
def withdrawApplication (apps : List Application) (applicationId seekerId : Nat) :
    SeekerWithdrawOutcome × List Application :=
  if seekerId = 0 then (.noProfile, apps)
  else
    match apps.find? (fun a =>
        a.id == applicationId && a.seekerId == seekerId &&
          (a.status == .PENDING || a.status == .REVIEWING)) with
    | none => (.notFound, apps)
    | some _ =>
        (.withdrawn,
          apps.map (fun a =>
            if a.id = applicationId then { a with status := .WITHDRAWN } else a))

end JobSeekerController

/-- Outcome of `ApplicationHistoryController.withdrawApplication` (part_002). -/
inductive HistoryWithdrawOutcome
  | notFound -- 404: "Application not found or access denied"
  | alreadyWithdrawn -- 400: "Application is already withdrawn"
  | processed -- 400: "Cannot withdraw application that has been processed"
  | withdrawn -- 200
  deriving DecidableEq, Repr

namespace ApplicationHistoryController

/-- `ApplicationHistoryController.withdrawApplication` (part_002 lines
440-500): `findFirst` on id + seekerId; refuses WITHDRAWN and
ACCEPTED/REJECTED with 400, otherwise updates the row to WITHDRAWN.
Note: no guard refuses SHORTLISTED or INTERVIEWED. -/
def withdrawApplication (apps : List Application) (applicationId seekerId : Nat) :
    HistoryWithdrawOutcome × List Application :=
  match apps.find? (fun a => a.id == applicationId && a.seekerId == seekerId) with
  | none => (.notFound, apps)
  | some existing =>
    if existing.status = .WITHDRAWN then (.alreadyWithdrawn, apps)
    else if existing.status = .ACCEPTED ∨ existing.status = .REJECTED then (.processed, apps)
    else
      (.withdrawn,
        apps.map (fun a =>
          if a.id = applicationId then { a with status := .WITHDRAWN } else a))

end ApplicationHistoryController

/-- The allow-list checked by `updateApplicationStatus`
(job.controller.ts line 732); `WITHDRAWN` is absent. -/
def employerStatusAllowList : List String :=
  ["PENDING", "REVIEWING", "SHORTLISTED", "INTERVIEWED", "ACCEPTED", "REJECTED"]

/-- Decode the status string of the request body into the Prisma enum. -/
def parseAppStatus : String → Option AppStatus
  | "PENDING" => some .PENDING
  | "REVIEWING" => some .REVIEWING
  | "SHORTLISTED" => some .SHORTLISTED
  | "INTERVIEWED" => some .INTERVIEWED
  | "ACCEPTED" => some .ACCEPTED
  | "REJECTED" => some .REJECTED
  | "WITHDRAWN" => some .WITHDRAWN
  | _ => none

/-- Outcome of `updateApplicationStatus` (job.controller.ts). -/
inductive UpdateStatusOutcome
  | invalidStatus -- 400: "Valid status is required"
  | internalError -- 500: prisma update throws when the row is absent
  | updated (s : AppStatus) -- 200
  deriving DecidableEq, Repr

/-- `updateApplicationStatus` (job.controller.ts lines 727-778): checks the
requested status against the allow-list, then unconditionally updates the
row with the given id to that status.  The current status of the
application is never consulted. -/
def updateApplicationStatus (apps : List Application) (applicationId : Nat) (status : String) :
    UpdateStatusOutcome × List Application :=
  if employerStatusAllowList.contains status then
    match parseAppStatus status with
    | none => (.invalidStatus, apps)
    | some s =>
      match apps.find? (fun a => a.id == applicationId) with
      | none => (.internalError, apps)
      | some _ =>
        (.updated s,
          apps.map (fun a => if a.id = applicationId then { a with status := s } else a))
  else (.invalidStatus, apps)

/-! ### Generic lemmas about keyed lookups in tables with unique keys -/

/-- `find?` returns the distinguished element when it is the only one
satisfying the predicate. -/
theorem find_eq_some_of_unique {α : Type} (p : α → Bool) (l : List α) (a : α)
    (ha : a ∈ l) (hpa : p a = true) (huniq : ∀ b ∈ l, p b = true → b = a) :
    l.find? p = some a := by
  induction l with
  | nil => cases ha
  | cons c t ih =>
    by_cases hc : p c = true
    · have hca : c = a := huniq c (List.mem_cons_self c t) hc
      subst hca
      simp [List.find?_cons_of_pos _ hc]
    · have hcb : p c = false := by simpa using hc
      have hca : c ≠ a := fun h => hc (h ▸ hpa)
      have ha' : a ∈ t := by
        rcases List.mem_cons.mp ha with h | h
        · exact absurd h.symm hca
        · exact h
      rw [List.find?_cons_of_neg _ (by simp [hcb])]
      exact ih ha' (fun b hb hpb => huniq b (List.mem_cons_of_mem _ hb) hpb)

/-- In a table whose mapped keys are `Nodup`, two rows with the same key
are equal. -/
theorem eq_of_nodup_key {α β : Type} (key : α → β) (l : List α)
    (hnodup : (l.map key).Nodup) (a b : α) (ha : a ∈ l) (hb : b ∈ l)
    (hk : key a = key b) : a = b := by
  induction l with
  | nil => cases ha
  | cons c t ih =>
    rw [List.map_cons, List.nodup_cons] at hnodup
    rcases List.mem_cons.mp ha with h1 | h1 <;> rcases List.mem_cons.mp hb with h2 | h2
    · exact h1.trans h2.symm
    · exfalso
      apply hnodup.1
      rw [← h1, hk]
      exact List.mem_map_of_mem key h2
    · exfalso
      apply hnodup.1
      rw [← h2, ← hk]
      exact List.mem_map_of_mem key h1
    · exact ih hnodup.2 h1 h2

/-- `find?` of a keyed predicate in a table: the some-case. -/
theorem find_withdraw_some (apps : List Application) (seekerId : Nat) (a : Application)
    (huniq : ∀ b ∈ apps, b.id = a.id → b = a) (ha : a ∈ apps)
    (hs : a.seekerId = seekerId) (hst : a.status = .PENDING ∨ a.status = .REVIEWING) :
    apps.find? (fun b => b.id == a.id && b.seekerId == seekerId &&
      (b.status == .PENDING || b.status == .REVIEWING)) = some a := by
  apply find_eq_some_of_unique _ _ a ha
  · rcases hst with h | h <;> simp [hs, h]
  · intro b hb hpb
    simp only [Bool.and_eq_true, beq_iff_eq] at hpb
    exact huniq b hb hpb.1.1

/-- `find?` of a keyed predicate in a table: the none-case. -/
theorem find_withdraw_none (apps : List Application) (seekerId : Nat) (a : Application)
    (huniq : ∀ b ∈ apps, b.id = a.id → b = a)
    (hcond : ¬(a.seekerId = seekerId ∧ (a.status = .PENDING ∨ a.status = .REVIEWING))) :
    apps.find? (fun b => b.id == a.id && b.seekerId == seekerId &&
      (b.status == .PENDING || b.status == .REVIEWING)) = none := by
  apply List.find?_eq_none.mpr
  intro b hb hpb
  simp only [Bool.and_eq_true, Bool.or_eq_true, beq_iff_eq] at hpb
  obtain ⟨⟨hbid, hbs⟩, hbst⟩ := hpb
  have hba := huniq b hb hbid
  subst hba
  exact hcond ⟨hbs, hbst⟩

/-- `find?` on id + seekerId: the some-case. -/
theorem find_pair_some (apps : List Application) (seekerId : Nat) (a : Application)
    (huniq : ∀ b ∈ apps, b.id = a.id → b = a) (ha : a ∈ apps)
    (hs : a.seekerId = seekerId) :
    apps.find? (fun b => b.id == a.id && b.seekerId == seekerId) = some a := by
  apply find_eq_some_of_unique _ _ a ha
  · simp [hs]
  · intro b hb hpb
    simp only [Bool.and_eq_true, beq_iff_eq] at hpb
    exact huniq b hb hpb.1

/-- `find?` on id + seekerId: the none-case. -/
theorem find_pair_none (apps : List Application) (seekerId : Nat) (a : Application)
    (huniq : ∀ b ∈ apps, b.id = a.id → b = a) (hs : a.seekerId ≠ seekerId) :
    apps.find? (fun b => b.id == a.id && b.seekerId == seekerId) = none := by
  apply List.find?_eq_none.mpr
  intro b hb hpb
  simp only [Bool.and_eq_true, beq_iff_eq] at hpb
  have hba := huniq b hb hpb.1
  subst hba
  exact hs hpb.2

/-- `find?` on id alone: the some-case. -/
theorem find_id_some (apps : List Application) (a : Application)
    (huniq : ∀ b ∈ apps, b.id = a.id → b = a) (ha : a ∈ apps) :
    apps.find? (fun b => b.id == a.id) = some a := by
  apply find_eq_some_of_unique _ _ a ha
  · simp
  · intro b hb hpb
    simp only [beq_iff_eq] at hpb
    exact huniq b hb hpb

/-- C1 (counterexample): the claim says a withdraw attempt from any status
other than PENDING/REVIEWING fails and leaves the application unchanged,
for both entry points; but `ApplicationHistoryController.withdrawApplication`
withdraws a SHORTLISTED application owned by the caller. -/
theorem C1_withdraw_shortlisted_counterexample :
    ApplicationHistoryController.withdrawApplication [⟨1, 1, 5, .SHORTLISTED⟩] 1 5 =
      (.withdrawn, [⟨1, 1, 5, .WITHDRAWN⟩]) := rfl

/-- C1 (amended): `JobSeekerController.withdrawApplication` succeeds exactly
when the caller owns the application and its status is PENDING or REVIEWING,
failing with a 404-style error and an unchanged table otherwise;
`ApplicationHistoryController.withdrawApplication` succeeds exactly when the
caller owns the application and its status is none of WITHDRAWN, ACCEPTED,
REJECTED (so also from SHORTLISTED and INTERVIEWED), failing with an error
and an unchanged table otherwise. -/
theorem withdraw_entry_points_characterization
    (apps : List Application) (applicationId seekerId : Nat) (a : Application)
    (hnodup : (apps.map Application.id).Nodup)
    (ha : a ∈ apps) (hid : a.id = applicationId) (hseek : seekerId ≠ 0) :
    ((JobSeekerController.withdrawApplication apps applicationId seekerId).1 = .withdrawn ↔
        a.seekerId = seekerId ∧ (a.status = .PENDING ∨ a.status = .REVIEWING)) ∧
    ((JobSeekerController.withdrawApplication apps applicationId seekerId).1 = .withdrawn →
        (JobSeekerController.withdrawApplication apps applicationId seekerId).2 =
          apps.map (fun b => if b.id = applicationId then { b with status := .WITHDRAWN } else b)) ∧
    ((JobSeekerController.withdrawApplication apps applicationId seekerId).1 ≠ .withdrawn →
        JobSeekerController.withdrawApplication apps applicationId seekerId = (.notFound, apps)) ∧
    ((ApplicationHistoryController.withdrawApplication apps applicationId seekerId).1 = .withdrawn ↔
        a.seekerId = seekerId ∧
          a.status ≠ .WITHDRAWN ∧ a.status ≠ .ACCEPTED ∧ a.status ≠ .REJECTED) ∧
    ((ApplicationHistoryController.withdrawApplication apps applicationId seekerId).1 = .withdrawn →
        (ApplicationHistoryController.withdrawApplication apps applicationId seekerId).2 =
          apps.map (fun b => if b.id = applicationId then { b with status := .WITHDRAWN } else b)) ∧
    ((ApplicationHistoryController.withdrawApplication apps applicationId seekerId).1 ≠ .withdrawn →
        (ApplicationHistoryController.withdrawApplication apps applicationId seekerId).2 = apps) := by
  subst hid
  have huniq : ∀ b ∈ apps, b.id = a.id → b = a := fun b hb hk =>
    eq_of_nodup_key Application.id apps hnodup b a hb ha hk
  by_cases hs : a.seekerId = seekerId
  · by_cases hst : a.status = .PENDING ∨ a.status = .REVIEWING
    · have h1 := find_withdraw_some apps seekerId a huniq ha hs hst
      have h2 := find_pair_some apps seekerId a huniq ha hs
      simp only [JobSeekerController.withdrawApplication,
        ApplicationHistoryController.withdrawApplication, if_neg hseek, h1, h2]
      rcases hst with h | h <;>
        simp [h, hs, JobSeekerController.withdrawApplication,
          ApplicationHistoryController.withdrawApplication]
    · have h1 := find_withdraw_none apps seekerId a huniq (fun hc => hst hc.2)
      have h2 := find_pair_some apps seekerId a huniq ha hs
      simp only [JobSeekerController.withdrawApplication,
        ApplicationHistoryController.withdrawApplication, if_neg hseek, h1, h2]
      push_neg at hst
      rcases hstatus : a.status <;> simp_all
  · have h1 := find_withdraw_none apps seekerId a huniq (fun hc => hs hc.1)
    have h2 := find_pair_none apps seekerId a huniq hs
    simp only [JobSeekerController.withdrawApplication,
      ApplicationHistoryController.withdrawApplication, if_neg hseek, h1, h2]
    simp [hs]

/-- C1 (witness): a PENDING application owned by seeker 5 is withdrawn by
the JobSeekerController entry point. -/
theorem withdraw_entry_points_characterization_witness :
    (JobSeekerController.withdrawApplication [⟨1, 1, 5, .PENDING⟩] 1 5).1 = .withdrawn :=
  ((withdraw_entry_points_characterization [⟨1, 1, 5, .PENDING⟩] 1 5 ⟨1, 1, 5, .PENDING⟩
      (by decide) (by decide) rfl (by decide)).1).mpr ⟨rfl, Or.inl rfl⟩

/-- C2 (counterexample): the claim says ACCEPTED is absorbing even for
`updateApplicationStatus`, but the employer can move an ACCEPTED
application back to REVIEWING. -/
theorem C2_terminal_counterexample :
    updateApplicationStatus [⟨1, 1, 5, .ACCEPTED⟩] 1 "REVIEWING" =
      (.updated .REVIEWING, [⟨1, 1, 5, .REVIEWING⟩]) := rfl

/-- C2 (amended): ACCEPTED, REJECTED and WITHDRAWN are terminal only with
respect to the two seeker withdraw entry points, which leave the table
unchanged; `updateApplicationStatus` consults no current status and moves
an application in any state (terminal ones included) to any allow-listed
status. -/
theorem terminal_statuses_amended
    (apps : List Application) (applicationId seekerId : Nat) (a : Application)
    (hnodup : (apps.map Application.id).Nodup) (ha : a ∈ apps) (hid : a.id = applicationId)
    (hterm : a.status = .ACCEPTED ∨ a.status = .REJECTED ∨ a.status = .WITHDRAWN) :
    (JobSeekerController.withdrawApplication apps applicationId seekerId).2 = apps ∧
    (ApplicationHistoryController.withdrawApplication apps applicationId seekerId).2 = apps ∧
    ∀ status s, parseAppStatus status = some s → status ∈ employerStatusAllowList →
      updateApplicationStatus apps applicationId status =
        (.updated s, apps.map (fun b => if b.id = applicationId then { b with status := s } else b)) := by
  subst hid
  have huniq : ∀ b ∈ apps, b.id = a.id → b = a := fun b hb hk =>
    eq_of_nodup_key Application.id apps hnodup b a hb ha hk
  refine ⟨?_, ?_, ?_⟩
  · by_cases hseek : seekerId = 0
    · simp [JobSeekerController.withdrawApplication, hseek]
    · have h1 := find_withdraw_none apps seekerId a huniq
        (fun hc => by rcases hterm with h | h | h <;> rcases hc.2 with h2 | h2 <;> simp_all)
      simp [JobSeekerController.withdrawApplication, hseek, h1]
  · by_cases hs : a.seekerId = seekerId
    · have h2 := find_pair_some apps seekerId a huniq ha hs
      simp only [ApplicationHistoryController.withdrawApplication, h2]
      rcases hterm with h | h | h <;> simp [h]
    · have h2 := find_pair_none apps seekerId a huniq hs
      simp [ApplicationHistoryController.withdrawApplication, h2]
  · intro status s hparse hallow
    have h3 := find_id_some apps a huniq ha
    simp [updateApplicationStatus, hallow, hparse, h3]

/-- C2 (witness): a WITHDRAWN application stays unchanged under the
history-controller withdraw, and `updateApplicationStatus` moves it to
PENDING. -/
theorem terminal_statuses_amended_witness :
    (ApplicationHistoryController.withdrawApplication [⟨1, 1, 5, .WITHDRAWN⟩] 1 5).2 =
      [⟨1, 1, 5, .WITHDRAWN⟩] :=
  (terminal_statuses_amended [⟨1, 1, 5, .WITHDRAWN⟩] 1 5 ⟨1, 1, 5, .WITHDRAWN⟩
      (by decide) (by decide) rfl (Or.inr (Or.inr rfl))).2.1

/-! ### Job application submission (part_001, `applyForJob`) -/

/-- Prisma enum `JobStatus`. -/
inductive JobStatus
  | ACTIVE
  | PAUSED
  | COMPLETED
  deriving DecidableEq, Repr

/-- A `Job` row (the attributes the application workflow consults). -/
structure Job where
  id : Nat
  employerId : Nat
  companyId : Nat
  status : JobStatus
  deriving DecidableEq, Repr

/-- A `JobFormField` row.  The field type enum is carried opaquely as a
string since none of the embedded handlers branch on it. -/
structure JobFormField where
  id : Nat
  jobId : Nat
  label : String
  fieldType : String
  isRequired : Bool
  isDefault : Bool
  order : Nat
  options : List String
  deriving DecidableEq, Repr

/-- One entry of the `responses` array accepted by `jobApplicationSchema`
(a `fieldId` number and an `answer` string). -/
structure ResponseInput where
  fieldId : Nat
  answer : String
  deriving DecidableEq, Repr

/-- An `ApplicationResponse` row. -/
structure ApplicationResponse where
  applicationId : Nat
  fieldId : Nat
  answer : String
  deriving DecidableEq, Repr

/-- Outcome of `JobSeekerController.applyForJob`. -/
inductive ApplyOutcome
  | noProfile -- 400: missing jobSeekerId on the request context
  | jobNotFound -- 404: "Job not found or no longer active"
  | alreadyApplied -- 400: "You have already applied for this job"
  | missingRequired (label : String) -- 400: required field label missing
  | created -- 201
  deriving DecidableEq, Repr

/-- The HTTP status code each apply outcome is sent with. -/
def applyHttpStatus : ApplyOutcome → Nat
  | .noProfile => 400
  | .jobNotFound => 404
  | .alreadyApplied => 400
  | .missingRequired _ => 400
  | .created => 201

namespace JobSeekerController

/-- `JobSeekerController.applyForJob` (part_001 lines 268-379): looks up the
job by id restricted to ACTIVE, rejects a duplicate `(jobId, seekerId)`
application, walks the job's required form fields returning the first one
with no matching response, and otherwise creates the application (status
defaults to PENDING per the schema) together with one response row per
submitted answer.  The body is assumed to have passed
`jobApplicationSchema`, which our typed `responses` input does by
construction. -/
def applyForJob (jobs : List Job) (formFields : List JobFormField)
    (apps : List Application) (resps : List ApplicationResponse)
    (newAppId jobId seekerId : Nat) (responses : List ResponseInput) :
    ApplyOutcome × List Application × List ApplicationResponse :=
  if seekerId = 0 then (.noProfile, apps, resps)
  else
    match jobs.find? (fun j => j.id == jobId && j.status == .ACTIVE) with
    | none => (.jobNotFound, apps, resps)
    | some _ =>
      match apps.find? (fun a => a.jobId == jobId && a.seekerId == seekerId) with
      | some _ => (.alreadyApplied, apps, resps)
      | none =>
        let jobFields := formFields.filter (fun f => f.jobId == jobId)
        let requiredFields := jobFields.filter (fun f => f.isRequired)
        let responseFieldIds := responses.map (fun r => r.fieldId)
        match requiredFields.find? (fun f => !(responseFieldIds.contains f.id)) with
        | some f => (.missingRequired f.label, apps, resps)
        | none =>
          (.created,
            apps ++ [{ id := newAppId, jobId := jobId, seekerId := seekerId, status := .PENDING }],
            resps ++ responses.map (fun r =>
              { applicationId := newAppId, fieldId := r.fieldId, answer := r.answer }))

end JobSeekerController

/-- C3 (counterexample): a second apply for the same `(jobId, seekerId)`
pair is refused with HTTP 400 ("You have already applied for this job"),
not with a 409 Conflict as the claim states. -/
theorem C3_duplicate_apply_not_conflict :
    (JobSeekerController.applyForJob [⟨1, 1, 1, .ACTIVE⟩] [] [⟨1, 1, 5, .PENDING⟩] [] 2 1 5 []).1 =
        .alreadyApplied ∧
      applyHttpStatus .alreadyApplied = 400 ∧ applyHttpStatus .alreadyApplied ≠ 409 := by
  refine ⟨rfl, rfl, by decide⟩

/-- C3 (amended): while the job is still ACTIVE, a second apply for the same
`(jobId, seekerId)` pair fails with the 400 "already applied" error, leaving
the application and response tables unchanged; and `applyForJob` preserves
at-most-one-application-per-pair. -/
theorem apply_uniqueness_amended (jobs : List Job) (formFields : List JobFormField)
    (apps : List Application) (resps : List ApplicationResponse)
    (newAppId jobId seekerId : Nat) (responses : List ResponseInput)
    (hpairs : (apps.map (fun a => (a.jobId, a.seekerId))).Nodup) :
    ((∃ j ∈ jobs, j.id = jobId ∧ j.status = .ACTIVE) →
      (∃ a ∈ apps, a.jobId = jobId ∧ a.seekerId = seekerId) → seekerId ≠ 0 →
      JobSeekerController.applyForJob jobs formFields apps resps newAppId jobId seekerId responses =
        (.alreadyApplied, apps, resps) ∧ applyHttpStatus .alreadyApplied = 400) ∧
    (((JobSeekerController.applyForJob jobs formFields apps resps newAppId jobId seekerId
        responses).2.1.map (fun a => (a.jobId, a.seekerId))).Nodup) := by
  constructor
  · rintro ⟨j, hj, hjid, hjst⟩ ⟨a, ha, haj, has⟩ hseek
    have hjobsome : (jobs.find? (fun j => j.id == jobId && j.status == .ACTIVE)).isSome :=
      List.find?_isSome.mpr ⟨j, hj, by simp [hjid, hjst]⟩
    have hdupsome : (apps.find? (fun a => a.jobId == jobId && a.seekerId == seekerId)).isSome :=
      List.find?_isSome.mpr ⟨a, ha, by simp [haj, has]⟩
    rcases hjfind : jobs.find? (fun j => j.id == jobId && j.status == .ACTIVE) with _ | j0
    · rw [hjfind] at hjobsome; cases hjobsome
    rcases hdfind : apps.find? (fun a => a.jobId == jobId && a.seekerId == seekerId) with _ | a0
    · rw [hdfind] at hdupsome; cases hdupsome
    simp [JobSeekerController.applyForJob, hseek, hjfind, hdfind, applyHttpStatus]
  · by_cases hseek : seekerId = 0
    · simp only [JobSeekerController.applyForJob, if_pos hseek]
      exact hpairs
    rcases hjfind : jobs.find? (fun j => j.id == jobId && j.status == .ACTIVE) with _ | j0
    · simp only [JobSeekerController.applyForJob, if_neg hseek, hjfind]
      exact hpairs
    rcases hdfind : apps.find? (fun a => a.jobId == jobId && a.seekerId == seekerId) with _ | a0
    swap
    · simp only [JobSeekerController.applyForJob, if_neg hseek, hjfind, hdfind]
      exact hpairs
    rcases hreq : ((formFields.filter (fun f => f.jobId == jobId)).filter
        (fun f => f.isRequired)).find?
        (fun f => !((responses.map (fun r => r.fieldId)).contains f.id)) with _ | f0
    swap
    · simp only [JobSeekerController.applyForJob, if_neg hseek, hjfind, hdfind, hreq]
      exact hpairs
    have hnew : ∀ a ∈ apps, ¬(a.jobId = jobId ∧ a.seekerId = seekerId) := by
      intro a ha hc
      have h := List.find?_eq_none.mp hdfind a ha
      simp [hc.1, hc.2] at h
    simp only [JobSeekerController.applyForJob, if_neg hseek, hjfind, hdfind, hreq,
      List.map_append]
    refine List.Nodup.append hpairs (by simp) ?_
    intro x hx hx1
    simp only [List.map_cons, List.map_nil, List.mem_singleton] at hx1
    obtain ⟨a, ha, hax⟩ := List.mem_map.mp hx
    apply hnew a ha
    rw [hx1] at hax
    exact ⟨congrArg Prod.fst hax, congrArg Prod.snd hax⟩

/-- C3 (witness): the duplicate-apply branch at a concrete state. -/
theorem apply_uniqueness_amended_witness :
    JobSeekerController.applyForJob [⟨1, 1, 1, .ACTIVE⟩] [] [⟨1, 1, 5, .PENDING⟩] [] 2 1 5 [] =
      (.alreadyApplied, [⟨1, 1, 5, .PENDING⟩], []) :=
  ((apply_uniqueness_amended [⟨1, 1, 1, .ACTIVE⟩] [] [⟨1, 1, 5, .PENDING⟩] [] 2 1 5 []
      (by decide)).1 ⟨⟨1, 1, 1, .ACTIVE⟩, by decide, rfl, rfl⟩
      ⟨⟨1, 1, 5, .PENDING⟩, by decide, rfl, rfl⟩ (by decide)).1

/-- C4 (confirmed): for an ACTIVE job with no pre-existing application by
the caller, `applyForJob` fails with the 400 "required field missing" error
iff some form field of the job with `isRequired = true` has no response
with a matching fieldId; the reported label is that of the first such field
in the job's field list; and when every required field is answered the
application row and its response rows are created. -/
theorem apply_required_fields (jobs : List Job) (formFields : List JobFormField)
    (apps : List Application) (resps : List ApplicationResponse)
    (newAppId jobId seekerId : Nat) (responses : List ResponseInput)
    (hseek : seekerId ≠ 0)
    (hjob : ∃ j ∈ jobs, j.id = jobId ∧ j.status = .ACTIVE)
    (hnoprev : ∀ a ∈ apps, ¬(a.jobId = jobId ∧ a.seekerId = seekerId)) :
    (∀ l, applyHttpStatus (.missingRequired l) = 400) ∧
    ((∃ l, (JobSeekerController.applyForJob jobs formFields apps resps newAppId jobId seekerId
          responses).1 = .missingRequired l) ↔
        ∃ f ∈ formFields, f.jobId = jobId ∧ f.isRequired = true ∧
          f.id ∉ responses.map (fun r => r.fieldId)) ∧
    (∀ f, ((formFields.filter (fun f => f.jobId == jobId)).filter (fun f => f.isRequired)).find?
          (fun f => !((responses.map (fun r => r.fieldId)).contains f.id)) = some f →
        (JobSeekerController.applyForJob jobs formFields apps resps newAppId jobId seekerId
          responses).1 = .missingRequired f.label) ∧
    ((∀ f ∈ formFields, f.jobId = jobId → f.isRequired = true →
        f.id ∈ responses.map (fun r => r.fieldId)) →
      JobSeekerController.applyForJob jobs formFields apps resps newAppId jobId seekerId
          responses =
        (.created,
          apps ++ [{ id := newAppId, jobId := jobId, seekerId := seekerId, status := .PENDING }],
          resps ++ responses.map (fun r =>
            { applicationId := newAppId, fieldId := r.fieldId, answer := r.answer }))) := by
  obtain ⟨j, hj, hjid, hjst⟩ := hjob
  have hjobsome : (jobs.find? (fun j => j.id == jobId && j.status == .ACTIVE)).isSome :=
    List.find?_isSome.mpr ⟨j, hj, by simp [hjid, hjst]⟩
  rcases hjfind : jobs.find? (fun j => j.id == jobId && j.status == .ACTIVE) with _ | j0
  · rw [hjfind] at hjobsome; cases hjobsome
  have hdfind : apps.find? (fun a => a.jobId == jobId && a.seekerId == seekerId) = none := by
    apply List.find?_eq_none.mpr
    intro a ha hp
    simp only [Bool.and_eq_true, beq_iff_eq] at hp
    exact hnoprev a ha hp
  refine ⟨fun l => rfl, ?_, ?_, ?_⟩
  · rcases hreq : ((formFields.filter (fun f => f.jobId == jobId)).filter
        (fun f => f.isRequired)).find?
        (fun f => !((responses.map (fun r => r.fieldId)).contains f.id)) with _ | f0
    · simp only [JobSeekerController.applyForJob, if_neg hseek, hjfind, hdfind, hreq]
      constructor
      · rintro ⟨l, hl⟩; exact ApplyOutcome.noConfusion hl
      · rintro ⟨f, hf, hfj, hfr, hfm⟩
        exfalso
        have hmem : f ∈ (formFields.filter (fun f => f.jobId == jobId)).filter
            (fun f => f.isRequired) := by
          rw [List.mem_filter, List.mem_filter]
          exact ⟨⟨hf, by simp [hfj]⟩, by simp [hfr]⟩
        have h := List.find?_eq_none.mp hreq f hmem
        simp at h
        exact hfm (List.mem_map.mpr h)
    · simp only [JobSeekerController.applyForJob, if_neg hseek, hjfind, hdfind, hreq]
      constructor
      · intro _
        have hf0mem := List.mem_of_find?_eq_some hreq
        have hf0p := List.find?_some hreq
        rw [List.mem_filter, List.mem_filter] at hf0mem
        simp at hf0p
        refine ⟨f0, hf0mem.1.1, by simpa using hf0mem.1.2, by simpa using hf0mem.2, ?_⟩
        intro hmem
        obtain ⟨x, hx, hxe⟩ := List.mem_map.mp hmem
        exact hf0p x hx hxe
      · intro _; exact ⟨f0.label, rfl⟩
  · intro f hfind
    rcases hreq : ((formFields.filter (fun f => f.jobId == jobId)).filter
        (fun f => f.isRequired)).find?
        (fun f => !((responses.map (fun r => r.fieldId)).contains f.id)) with _ | f0
    · rw [hreq] at hfind; cases hfind
    · rw [hreq] at hfind
      injection hfind with hf
      subst hf
      simp only [JobSeekerController.applyForJob, if_neg hseek, hjfind, hdfind, hreq]
  · intro hall
    have hreq : ((formFields.filter (fun f => f.jobId == jobId)).filter
        (fun f => f.isRequired)).find?
        (fun f => !((responses.map (fun r => r.fieldId)).contains f.id)) = none := by
      apply List.find?_eq_none.mpr
      intro f hf hp
      rw [List.mem_filter, List.mem_filter] at hf
      have hin := hall f hf.1.1 (by simpa using hf.1.2) (by simpa using hf.2)
      simp at hp
      obtain ⟨x, hx, hxe⟩ := List.mem_map.mp hin
      exact hp x hx hxe
    simp only [JobSeekerController.applyForJob, if_neg hseek, hjfind, hdfind, hreq]

/-- C4 (witness): a job whose only required field "Full Name" is not
answered is refused with that label, and answering it creates the
application. -/
theorem apply_required_fields_witness :
    (JobSeekerController.applyForJob [⟨1, 1, 1, .ACTIVE⟩]
        [⟨10, 1, "Full Name", "TEXT", true, true, 1, []⟩] [] [] 2 1 5 []).1 =
      .missingRequired "Full Name" :=
  (apply_required_fields [⟨1, 1, 1, .ACTIVE⟩] [⟨10, 1, "Full Name", "TEXT", true, true, 1, []⟩]
      [] [] 2 1 5 [] (by decide) ⟨⟨1, 1, 1, .ACTIVE⟩, by decide, rfl, rfl⟩
      (by intro a ha; cases ha)).2.2.1
    ⟨10, 1, "Full Name", "TEXT", true, true, 1, []⟩ (by decide)

/-! ### Profile completion (part_000 and employer.controller.ts) -/

/-- JavaScript `Math.round` on the nonnegative rational `a / b` (ties round
up, as `Math.round` does for nonnegative arguments), in integer
arithmetic: `⌊a / b + 1 / 2⌋ = (2 * a + b) / (2 * b)`. -/
def jsRoundNat (a b : Nat) : Nat := (2 * a + b) / (2 * b)

namespace JobSeekerDashboard

/-- `checkProfileStatus` for job seekers (part_000 lines 1210-1335),
completion part: six section booleans; `nextStep` is the first incomplete
section in order; the percentage assigned alongside `nextStep` in the
if-ladder is overwritten at line 1308 by the count-based recount
`Math.round((completedSections / totalSections) * 100)`.  Returns
`(nextStep, completionPercentage)`. -/
def checkProfileStatus (basicDetailsComplete jobSeekerProfileComplete hasEducation
    hasExperience hasProjects hasPreferences : Bool) : String × Nat :=
  let nextStep :=
    if basicDetailsComplete = false then "basic_details"
    else if jobSeekerProfileComplete = false then "job_seeker_profile"
    else if hasEducation = false then "education"
    else if hasExperience = false then "experience"
    else if hasProjects = false then "projects"
    else if hasPreferences = false then "preferences"
    else "complete"
  let profileSections := [basicDetailsComplete, jobSeekerProfileComplete, hasEducation,
    hasExperience, hasProjects, hasPreferences]
  let completedSections := (profileSections.filter (fun b => b)).length
  let totalSections := profileSections.length
  (nextStep, jsRoundNat (completedSections * 100) totalSections)

end JobSeekerDashboard

namespace EmployerController

/-- `checkProfileStatus` for employers (employer.controller.ts lines
266-311): the completion percentage is the hard-coded ladder value of the
first incomplete step (0 / 33 / 66 / 100); unlike the seeker variant there
is no count-based recount. -/
def checkProfileStatus (basicDetailsComplete employerProfileComplete companySelected : Bool) :
    String × Nat :=
  if basicDetailsComplete = false then ("basic_details", 0)
  else if employerProfileComplete = false then ("employer_profile", 33)
  else if companySelected = false then ("company_selection", 66)
  else ("complete", 100)

end EmployerController

/-- Modelled from the spec: `completionPercentage` =
round(100 × completedSteps / totalSteps), with every step weighted evenly.
Stated from the spec's words for comparison against the code's
computations. -/
def specCompletionPercentage (steps : List Bool) : Nat :=
  jsRoundNat ((steps.filter (fun b => b)).length * 100) steps.length

/-- C5 (counterexample): an employer with basic details and profile
complete but no company selected gets completionPercentage 66 from the
code's ladder, not round(100 × 2/3) = 67 as the claim states. -/
theorem C5_employer_percentage_counterexample :
    (EmployerController.checkProfileStatus true true false).2 = 66 ∧
      specCompletionPercentage [true, true, false] = 67 ∧
      (EmployerController.checkProfileStatus true true false).2 ≠
        specCompletionPercentage [true, true, false] := by decide

/-- C5 (amended): the seeker variant of `checkProfileStatus` returns
exactly round(100 × completedSteps / 6) over the six independently counted
sections (so the 4-of-6 example gives 67), while the employer variant
returns the ladder value of the first incomplete step — 0, 33, 66 or
100 — which for basic details + profile without company is 66, not
round(100 × 2/3) = 67. -/
theorem profile_completion_percentage_amended
    (b p e x pr pf : Bool) :
    (JobSeekerDashboard.checkProfileStatus b p e x pr pf).2 =
        specCompletionPercentage [b, p, e, x, pr, pf] ∧
    (JobSeekerDashboard.checkProfileStatus true true true true false false).2 = 67 ∧
    (EmployerController.checkProfileStatus true true false).2 = 66 ∧
    (∀ b2 p2 c2 : Bool,
      (EmployerController.checkProfileStatus b2 p2 c2).2 =
        if b2 = false then 0 else if p2 = false then 33
        else if c2 = false then 66 else 100) := by
  refine ⟨?_, by decide, by decide, by decide⟩
  cases b <;> cases p <;> cases e <;> cases x <;> cases pr <;> cases pf <;> decide

/-! ### Dashboard status distribution (part_000, `getDashboardStats`) -/

/-- A status bucket of the employer dashboard status distribution. -/
structure StatusBucket where
  status : AppStatus
  count : Nat
  percentage : Nat
  deriving DecidableEq, Repr

/-- `applicationStatusStats`: the groupBy of the matching applications'
statuses with a per-group count (groups in order of first appearance). -/
def applicationStatusStats (statuses : List AppStatus) : List (AppStatus × Nat) :=
  statuses.dedup.map (fun s => (s, (statuses.filter (fun t => t == s)).length))

/-- Step 7 of `getDashboardStats` (part_000 lines 184-189):
`percentage: Math.round((stat._count.id / totalApplicants) * 100) || 0`.
In JS a zero `totalApplicants` makes the division NaN, `Math.round`
propagates NaN, and `NaN || 0` yields 0; with a positive total the rounded
value is a number and `|| 0` only maps an exact 0 to itself.  Both cases
are captured by the explicit zero test. -/
def statusDistribution (statuses : List AppStatus) (totalApplicants : Nat) : List StatusBucket :=
  (applicationStatusStats statuses).map (fun stat =>
    { status := stat.1, count := stat.2,
      percentage := if totalApplicants = 0 then 0 else jsRoundNat (stat.2 * 100) totalApplicants })

/-- The distribution as `getDashboardStats` computes it: `totalApplicants`
counts the same application set the groupBy runs over. -/
def getDashboardStatusDistribution (statuses : List AppStatus) : List StatusBucket :=
  statusDistribution statuses statuses.length

/-- C9 (confirmed): the status-distribution computation is a total
function; with a nonzero application count every bucket's percentage is
round(100 × count / total), and with a zero count every bucket (there are
none, and the guard would force 0 anyway) reports percentage 0. -/
theorem statusDistribution_total_safe (statuses : List AppStatus) :
    (∀ b ∈ getDashboardStatusDistribution statuses,
      (statuses.length ≠ 0 → b.percentage = jsRoundNat (b.count * 100) statuses.length) ∧
      (statuses.length = 0 → b.percentage = 0)) ∧
    (statuses.length = 0 → getDashboardStatusDistribution statuses = []) := by
  constructor
  · intro b hb
    simp only [getDashboardStatusDistribution, statusDistribution, List.mem_map] at hb
    obtain ⟨stat, hstat, rfl⟩ := hb
    constructor
    · intro h0; simp [h0]
    · intro h0; simp [h0]
  · intro h
    rw [List.length_eq_zero] at h
    subst h
    rfl

/-- C9 (witness): for three applications (two PENDING, one REVIEWING) the
PENDING bucket reports round(200/3) = 67. -/
theorem statusDistribution_total_safe_witness :
    (⟨.PENDING, 2, 67⟩ : StatusBucket).percentage = jsRoundNat (2 * 100) 3 :=
  ((statusDistribution_total_safe [.PENDING, .REVIEWING, .PENDING]).1
      ⟨.PENDING, 2, 67⟩ (by decide)).1 (by decide)

/-! ### Company directory (company.controller.ts) -/

/-- ASCII whitespace predicate used by the trim model. -/
def isSpaceChar (c : Char) : Bool := c == ' ' || c == '\t' || c == '\n' || c == '\r'

/-- JavaScript `String.prototype.trim()`, modelled over the character
list. -/
def jsTrim (s : String) : String :=
  ⟨((s.data.dropWhile isSpaceChar).reverse.dropWhile isSpaceChar).reverse⟩

/-- Case folding implementing Prisma's `mode: 'insensitive'` equality
(Postgres `lower()`-style comparison); whitespace is preserved. -/
def lowerString (s : String) : String := ⟨s.data.map Char.toLower⟩

/-- A `Company` row (the attributes the embedded handlers consult). -/
structure Company where
  id : Nat
  name : String
  isActive : Bool
  deriving DecidableEq, Repr

/-- Outcome of `createCompany` (name-uniqueness path). -/
inductive CreateCompanyOutcome
  | invalidInput -- 400: zod validation failure (name length 2-100)
  | conflict (id : Nat) (name : String) -- 409 with a join-instead suggestion
  | created (id : Nat) -- 201
  deriving DecidableEq, Repr

/-- `createCompany` (company.controller.ts lines 181-300), name handling:
after zod validation (`name` 2-100 chars, untrimmed), `findFirst` for an
active company whose stored name equals the **trimmed incoming** name
case-insensitively (`equals: name.trim(), mode: 'insensitive'`; the stored
name is compared as-is), answering 409 carrying the conflicting company's
id and name; otherwise the company is inserted with the trimmed name,
active.  The transaction also promotes the creating employer to ADMIN;
that write is outside this claim's scope. -/
def createCompany (companies : List Company) (newId : Nat) (name : String) :
    CreateCompanyOutcome × List Company :=
  if name.length < 2 ∨ 100 < name.length then (.invalidInput, companies)
  else
    match companies.find? (fun c =>
        lowerString c.name == lowerString (jsTrim name) && c.isActive) with
    | some c => (.conflict c.id c.name, companies)
    | none =>
        (.created newId, companies ++ [{ id := newId, name := jsTrim name, isActive := true }])

/-- C6 (counterexample): with an active company whose stored name is
"ACME " (trailing space), creating "Acme" succeeds — the duplicate check
trims only the incoming name, so the claimed Conflict does not occur. -/
theorem C6_trailing_space_not_conflict :
    (createCompany [⟨1, "ACME ", true⟩] 2 "Acme").1 = .created 2 := by decide

/-- C6 (amended): `createCompany` raises Conflict iff some active company's
stored name equals the trimmed incoming name case-insensitively, carrying
that company's id and name as the join-instead suggestion, and otherwise
creates the company with the trimmed name; hence creating "Acme " when
"Acme" exists conflicts, but creating "Acme" when the stored name is
"ACME " (trailing space) does not. -/
theorem createCompany_name_uniqueness_amended (companies : List Company) (newId : Nat)
    (name : String) (hlen : ¬(name.length < 2 ∨ 100 < name.length)) :
    ((∃ c ∈ companies, c.isActive = true ∧ lowerString c.name = lowerString (jsTrim name)) →
      ∃ c ∈ companies, c.isActive = true ∧ lowerString c.name = lowerString (jsTrim name) ∧
        createCompany companies newId name = (.conflict c.id c.name, companies)) ∧
    ((∀ c ∈ companies, c.isActive = true → lowerString c.name ≠ lowerString (jsTrim name)) →
      createCompany companies newId name =
        (.created newId, companies ++ [{ id := newId, name := jsTrim name, isActive := true }])) ∧
    (createCompany [⟨1, "Acme", true⟩] 2 "Acme ").1 = .conflict 1 "Acme" ∧
    (createCompany [⟨1, "ACME ", true⟩] 2 "Acme").1 = .created 2 := by
  refine ⟨?_, ?_, by decide, by decide⟩
  · rintro ⟨c, hc, hact, hname⟩
    have hsome : (companies.find? (fun c =>
        lowerString c.name == lowerString (jsTrim name) && c.isActive)).isSome :=
      List.find?_isSome.mpr ⟨c, hc, by simp [hname, hact]⟩
    rcases hfind : companies.find? (fun c =>
        lowerString c.name == lowerString (jsTrim name) && c.isActive) with _ | c0
    · rw [hfind] at hsome; cases hsome
    have hc0mem := List.mem_of_find?_eq_some hfind
    have hc0p := List.find?_some hfind
    simp only [Bool.and_eq_true, beq_iff_eq] at hc0p
    refine ⟨c0, hc0mem, hc0p.2, hc0p.1, ?_⟩
    simp only [createCompany, if_neg hlen, hfind]
  · intro hnone
    have hfind : companies.find? (fun c =>
        lowerString c.name == lowerString (jsTrim name) && c.isActive) = none := by
      apply List.find?_eq_none.mpr
      intro c hc hp
      simp only [Bool.and_eq_true, beq_iff_eq] at hp
      exact hnone c hc hp.2 hp.1
    simp only [createCompany, if_neg hlen, hfind]

/-- C6 (witness): creating "Acme " when an active "Acme" exists yields the
Conflict with the existing company's id. -/
theorem createCompany_name_uniqueness_amended_witness :
    (createCompany [⟨1, "Acme", true⟩] 2 "Acme ").1 = .conflict 1 "Acme" :=
  (createCompany_name_uniqueness_amended [⟨1, "Acme", true⟩] 2 "Acme " (by decide)).2.2.1

/-- An `Employer` row (the attributes `selectExistingCompany` touches);
`role` is the company-scoped role enum carried as a string. -/
structure Employer where
  id : Nat
  companyId : Option Nat
  role : String
  joinedAt : Option Nat
  deriving DecidableEq, Repr

/-- Outcome of `selectExistingCompany`. -/
inductive SelectCompanyOutcome
  | invalidId -- 400: "Valid company ID is required"
  | notFound -- 404: "Company not found or inactive"
  | internalError -- 500: prisma employer update throws
  | joined (companyName : String) -- 200: "Successfully joined ..."
  deriving DecidableEq, Repr

/-- `selectExistingCompany` (company.controller.ts lines 87-178): rejects a
falsy or NaN company id, looks the company up by id restricted to active
(404 otherwise), reads the employer's current companyId (the exclusivity
guard on it is commented out in source), then overwrites the employer's
companyId and joinedAt.  `now` is the update timestamp.  The company table
is never written. -/
def selectExistingCompany (companies : List Company) (employers : List Employer)
    (employerId companyId now : Nat) : SelectCompanyOutcome × List Employer :=
  if companyId = 0 then (.invalidId, employers)
  else
    match companies.find? (fun c => c.id == companyId && c.isActive) with
    | none => (.notFound, employers)
    | some company =>
      match employers.find? (fun e => e.id == employerId) with
      | none => (.internalError, employers)
      | some _ =>
        (.joined company.name,
          employers.map (fun e =>
            if e.id = employerId then
              { e with companyId := some companyId, joinedAt := some now }
            else e))

/-- C8 (confirmed): `selectExistingCompany` answers NotFound and leaves the
employer table unchanged when no active company has the target id;
otherwise it succeeds — regardless of the calling employer's prior
companyId — setting exactly the caller's companyId to the target and its
joinedAt to the update timestamp, while every other employer row is kept
unchanged (and the company table is never written at all). -/
theorem selectExistingCompany_spec (companies : List Company) (employers : List Employer)
    (employerId companyId now : Nat) (e : Employer)
    (hcid : companyId ≠ 0) (he : e ∈ employers) (heid : e.id = employerId) :
    ((∀ c ∈ companies, c.id = companyId → c.isActive = false) →
      selectExistingCompany companies employers employerId companyId now =
        (.notFound, employers)) ∧
    (∀ c ∈ companies, c.id = companyId → c.isActive = true →
      (∃ cname, (selectExistingCompany companies employers employerId companyId now).1 =
          .joined cname) ∧
      (selectExistingCompany companies employers employerId companyId now).2 =
        employers.map (fun e2 =>
          if e2.id = employerId then
            { e2 with companyId := some companyId, joinedAt := some now }
          else e2) ∧
      { e with companyId := some companyId, joinedAt := some now } ∈
        (selectExistingCompany companies employers employerId companyId now).2 ∧
      ∀ e2 ∈ employers, e2.id ≠ employerId →
        e2 ∈ (selectExistingCompany companies employers employerId companyId now).2) := by
  constructor
  · intro hnone
    have hfind : companies.find? (fun c => c.id == companyId && c.isActive) = none := by
      apply List.find?_eq_none.mpr
      intro c hc hp
      simp only [Bool.and_eq_true, beq_iff_eq] at hp
      rw [hnone c hc hp.1] at hp
      exact Bool.noConfusion hp.2
    simp only [selectExistingCompany, if_neg hcid, hfind]
  · intro c hc hcidm hact
    have hsome : (companies.find? (fun c => c.id == companyId && c.isActive)).isSome :=
      List.find?_isSome.mpr ⟨c, hc, by simp [hcidm, hact]⟩
    rcases hfind : companies.find? (fun c => c.id == companyId && c.isActive) with _ | c0
    · rw [hfind] at hsome; cases hsome
    have hesome : (employers.find? (fun e2 => e2.id == employerId)).isSome :=
      List.find?_isSome.mpr ⟨e, he, by simp [heid]⟩
    rcases hefind : employers.find? (fun e2 => e2.id == employerId) with _ | e0
    · rw [hefind] at hesome; cases hesome
    refine ⟨⟨c0.name, ?_⟩, ?_, ?_, ?_⟩
    · simp only [selectExistingCompany, if_neg hcid, hfind, hefind]
    · simp only [selectExistingCompany, if_neg hcid, hfind, hefind]
    · simp only [selectExistingCompany, if_neg hcid, hfind, hefind]
      have hmem := List.mem_map_of_mem
        (fun e2 => if e2.id = employerId then
          { e2 with companyId := some companyId, joinedAt := some now } else e2) he
      simpa [heid] using hmem
    · intro e2 he2 hne
      simp only [selectExistingCompany, if_neg hcid, hfind, hefind]
      have hmem := List.mem_map_of_mem
        (fun e3 => if e3.id = employerId then
          { e3 with companyId := some companyId, joinedAt := some now } else e3) he2
      simpa [hne] using hmem

/-- C8 (witness): employer 7, previously in company 9, joins active company
3; its row is overwritten with companyId 3 and the new joinedAt. -/
theorem selectExistingCompany_spec_witness :
    (⟨7, some 3, "RECRUITER", some 1000⟩ : Employer) ∈
      (selectExistingCompany [⟨3, "Nimbus", true⟩] [⟨7, some 9, "RECRUITER", none⟩]
        7 3 1000).2 :=
  ((selectExistingCompany_spec [⟨3, "Nimbus", true⟩] [⟨7, some 9, "RECRUITER", none⟩]
      7 3 1000 ⟨7, some 9, "RECRUITER", none⟩ (by decide) (by decide) rfl).2
    ⟨3, "Nimbus", true⟩ (by decide) rfl rfl).2.2.1

/-! ### Job form builder (job.controller.ts) -/

/-- Outcome of `deleteJobFormField`. -/
inductive DeleteFieldOutcome
  | notFound -- 404: "Form field not found"
  | cannotDeleteDefault -- 400: "Cannot delete default form fields"
  | deleted -- 200
  deriving DecidableEq, Repr

/-- `deleteJobFormField` (job.controller.ts lines 615-655): looks the field
up by id; refuses with 400 when it `isDefault`, otherwise deletes it.  The
handler performs no role or ownership check of its own, so the refusal for
default fields applies to any caller reaching it. -/
def deleteJobFormField (fields : List JobFormField) (fieldId : Nat) :
    DeleteFieldOutcome × List JobFormField :=
  match fields.find? (fun f => f.id == fieldId) with
  | none => (.notFound, fields)
  | some f =>
    if f.isDefault then (.cannotDeleteDefault, fields)
    else (.deleted, fields.filter (fun g => !(g.id == fieldId)))

/-- One element of the `fields` array accepted by `createJobForm`;
`isRequired` and `order` may be absent from the JSON body. -/
structure NewFieldInput where
  label : String
  fieldType : String
  isRequired : Option Bool
  order : Option Nat
  options : List String
  deriving DecidableEq, Repr

/-- JavaScript `x || d` on an optional boolean (undefined and false are
falsy). -/
def jsOrBool : Option Bool → Bool → Bool
  | some true, _ => true
  | some false, d => d
  | none, d => d

/-- JavaScript `x || d` on an optional number (undefined and 0 are
falsy). -/
def jsOrNat : Option Nat → Nat → Nat
  | some 0, d => d
  | some (n + 1), _ => n + 1
  | none, d => d

/-- The rows `createJobForm` inserts for the submitted fields
(job.controller.ts lines 498-512): `isRequired: field.isRequired || true`,
`isDefault: false`, `order: field.order || index + 100`.  Ids
`nextId, nextId + 1, ...` stand for autoincrement. -/
def createJobFormCreated (jobId : Nat) (newFields : List NewFieldInput) (nextId : Nat) :
    List JobFormField :=
  ((List.range newFields.length).zip newFields).map (fun p =>
    { id := nextId + p.1, jobId := jobId, label := p.2.label, fieldType := p.2.fieldType,
      isRequired := jsOrBool p.2.isRequired true, isDefault := false,
      order := jsOrNat p.2.order (p.1 + 100), options := p.2.options })

/-- `createJobForm` (job.controller.ts lines 470-527): deletes the job's
non-default fields (`deleteMany where jobId, isDefault: false`), then
inserts the submitted fields. -/
def createJobForm (fields : List JobFormField) (jobId : Nat)
    (newFields : List NewFieldInput) (nextId : Nat) : List JobFormField :=
  (fields.filter (fun f => !(f.jobId == jobId && !f.isDefault))) ++
    createJobFormCreated jobId newFields nextId

/-- One element of the `fields` array for `updateJobForm`: a present id
selects the update branch.  The remaining values are taken as submitted
(the update branch passes `isRequired: field.isRequired` with no
defaulting). -/
structure UpdateFieldInput where
  id : Option Nat
  label : String
  fieldType : String
  isRequired : Bool
  order : Nat
  options : List String
  deriving DecidableEq, Repr

/-- The row `updateJobForm`'s create branch inserts (lines 558-571):
`isRequired: field.isRequired || true`, `isDefault: false`,
`order: field.order || 0`. -/
def updateFormNewField (jobId : Nat) (inp : UpdateFieldInput) (newId : Nat) : JobFormField :=
  { id := newId, jobId := jobId, label := inp.label, fieldType := inp.fieldType,
    isRequired := inp.isRequired || true, isDefault := false,
    order := jsOrNat (some inp.order) 0, options := inp.options }

/-- The update `updateJobForm`'s update branch applies to the row matching
the submitted id (lines 546-557): label, type, required flag, order and
options are overwritten; neither `jobId` nor `isDefault` is consulted or
changed — in particular there is no check that the target is not a
default field. -/
def updateFormApply (inp : UpdateFieldInput) (f : JobFormField) : JobFormField :=
  { f with
      label := inp.label, fieldType := inp.fieldType,
      isRequired := inp.isRequired, order := inp.order, options := inp.options }

/-- `updateJobForm` (job.controller.ts lines 530-588), sequentialized: each
submitted field either updates the row carrying its id (prisma `update`
throws when no row matches, surfacing as a 500; the source issues the
writes through `Promise.all` without a transaction, so writes already
applied stay) or inserts a new non-default row.  Returns a success flag
and the resulting field table. -/
def updateJobFormGo (fields : List JobFormField) (jobId : Nat)
    (inputs : List UpdateFieldInput) (nextId : Nat) : Bool × List JobFormField :=
  match inputs with
  | [] => (true, fields)
  | inp :: rest =>
    match inp.id with
    | some fid =>
      if (fields.find? (fun f => f.id == fid)).isSome then
        updateJobFormGo (fields.map (fun f => if f.id = fid then updateFormApply inp f else f))
          jobId rest nextId
      else (false, fields)
    | none =>
      updateJobFormGo (fields ++ [updateFormNewField jobId inp nextId]) jobId rest (nextId + 1)

/-- `updateJobForm` entry point. -/
def updateJobForm (fields : List JobFormField) (jobId : Nat)
    (inputs : List UpdateFieldInput) (nextId : Nat) : Bool × List JobFormField :=
  updateJobFormGo fields jobId inputs nextId

/-- C7 (counterexample): the claim says the bulk update never modifies a
default field, but `updateJobForm` with the id of a default field rewrites
its label and required flag in place. -/
theorem C7_updateJobForm_modifies_default_counterexample :
    (updateJobForm [⟨1, 7, "Full Name", "TEXT", true, true, 1, []⟩] 7
        [⟨some 1, "Hacked", "TEXT", false, 1, []⟩] 10).2 =
      [⟨1, 7, "Hacked", "TEXT", false, true, 1, []⟩] := rfl

/-- C7 (amended): `deleteJobFormField` on a default field always fails with
the 400 InvalidOperation-style refusal and the table is unchanged (the
field persists); `createJobForm`'s bulk replace deletes only non-default
fields and inserts only non-default fields, leaving the default fields
exactly as they were; but `updateJobForm`'s update-by-id branch applies the
submitted label/type/required/order/options to the row with the given id
even when that row is a default field. -/
theorem form_field_default_protection_amended
    (fields : List JobFormField) (f : JobFormField)
    (hnodup : (fields.map JobFormField.id).Nodup)
    (hf : f ∈ fields) (hdef : f.isDefault = true) :
    (deleteJobFormField fields f.id = (.cannotDeleteDefault, fields)) ∧
    (∀ jobId newFields nextId,
      (createJobForm fields jobId newFields nextId).filter (fun g => g.isDefault) =
        fields.filter (fun g => g.isDefault)) ∧
    (∀ jobId lbl ft req ord opts nextId,
      updateJobForm fields jobId [⟨some f.id, lbl, ft, req, ord, opts⟩] nextId =
        (true, fields.map (fun g =>
          if g.id = f.id then updateFormApply ⟨some f.id, lbl, ft, req, ord, opts⟩ g else g)) ∧
      updateFormApply ⟨some f.id, lbl, ft, req, ord, opts⟩ f ∈
        (updateJobForm fields jobId [⟨some f.id, lbl, ft, req, ord, opts⟩] nextId).2) := by
  have huniq : ∀ g ∈ fields, g.id = f.id → g = f := fun g hg hk =>
    eq_of_nodup_key JobFormField.id fields hnodup g f hg hf hk
  have hfind : fields.find? (fun g => g.id == f.id) = some f := by
    apply find_eq_some_of_unique _ _ f hf (by simp)
    intro g hg hpg
    simp only [beq_iff_eq] at hpg
    exact huniq g hg hpg
  refine ⟨?_, ?_, ?_⟩
  · simp only [deleteJobFormField, hfind, hdef]
    simp
  · intro jobId newFields nextId
    simp only [createJobForm, List.filter_append]
    have hcreated : (createJobFormCreated jobId newFields nextId).filter
        (fun g => g.isDefault) = [] := by
      rw [List.filter_eq_nil_iff]
      intro g hg
      simp only [createJobFormCreated, List.mem_map] at hg
      obtain ⟨p, hp, rfl⟩ := hg
      simp
    rw [hcreated, List.append_nil, List.filter_filter]
    apply List.filter_congr
    intro g _
    cases hgd : g.isDefault <;> simp [hgd]
  · intro jobId lbl ft req ord opts nextId
    have hmain : updateJobForm fields jobId [⟨some f.id, lbl, ft, req, ord, opts⟩] nextId =
        (true, fields.map (fun g =>
          if g.id = f.id then updateFormApply ⟨some f.id, lbl, ft, req, ord, opts⟩ g else g)) := by
      simp only [updateJobForm, updateJobFormGo, hfind, Option.isSome_some, if_pos]
    refine ⟨hmain, ?_⟩
    rw [hmain]
    have hmem := List.mem_map_of_mem
      (fun g => if g.id = f.id then updateFormApply ⟨some f.id, lbl, ft, req, ord, opts⟩ g else g)
      hf
    simpa using hmem

/-- C7 (witness): deleting the default "Full Name" field is refused and the
field persists. -/
theorem form_field_default_protection_amended_witness :
    deleteJobFormField [⟨1, 7, "Full Name", "TEXT", true, true, 1, []⟩] 1 =
      (.cannotDeleteDefault, [⟨1, 7, "Full Name", "TEXT", true, true, 1, []⟩]) :=
  (form_field_default_protection_amended [⟨1, 7, "Full Name", "TEXT", true, true, 1, []⟩]
      ⟨1, 7, "Full Name", "TEXT", true, true, 1, []⟩ (by decide) (by decide) rfl).1

/-- Helper: `x || true` in JavaScript is always truthy. -/
theorem jsOrBool_true (x : Option Bool) : jsOrBool x true = true := by
  rcases x with _ | b
  · rfl
  · cases b <;> rfl

/-- C10 (confirmed): every field inserted through `createJobForm`, and
every id-less field inserted through `updateJobForm`'s create branch, is
stored with `isRequired = true` no matter what the employer submitted,
because `field.isRequired || true` always evaluates to true. -/
theorem created_fields_always_required :
    (∀ jobId newFields nextId g, g ∈ createJobFormCreated jobId newFields nextId →
      g.isRequired = true) ∧
    (∀ jobId inp newId, (updateFormNewField jobId inp newId).isRequired = true) := by
  constructor
  · intro jobId newFields nextId g hg
    simp only [createJobFormCreated, List.mem_map] at hg
    obtain ⟨p, hp, rfl⟩ := hg
    exact jsOrBool_true p.2.isRequired
  · intro jobId inp newId
    simp [updateFormNewField]

/-- C10 (witness): a field submitted with `isRequired: false` is stored
with `isRequired = true`. -/
theorem created_fields_always_required_witness :
    (⟨10, 7, "A", "TEXT", true, false, 100, []⟩ : JobFormField).isRequired = true :=
  created_fields_always_required.1 7 [⟨"A", "TEXT", some false, none, []⟩] 10
    ⟨10, 7, "A", "TEXT", true, false, 100, []⟩ (by decide)

end JobSphere
